import Mathlib

/-
Verification of the reconciliation engine in
src/ble-devicelink/bt-devicelink-device.js.

The JavaScript module is shallowly embedded: every operation below is a
direct translation of a function (or a delimited region) of the source
file, with the line numbers given in the doc comments.  Strings model JS
strings; `Option` models `undefined` / thrown exceptions where noted.
Asynchronous remote calls are modelled by an oracle (`RemoteEnv`) fixing
the success/failure of each call of one invocation, and by an event trace
recording every `console.log` and every remote-service call in program
order.  The external remote-service client (mbed-client-service) is not
part of the repository; its `resources` collection is modelled from the
spec's interface description (section 6): a path-keyed collection of
descriptors whose contents are replaced by a successful
`setResourceModel` and whose per-resource value is updated by a
successful `setValue`.
-/

namespace BtDL

/-- One LwM2M resource descriptor, the object literal built at lines
123-129 of the source (`path`, `valueType`, `operation`, `value`,
`observable`).  In JS `observable` is either `true` or `undefined`;
`Option Bool` models that. -/
structure Descriptor where
  path : String
  valueType : String
  operation : List String
  value : String
  observable : Option Bool
deriving DecidableEq

/-- A descriptor with its `value` field removed, as produced by the
`getSchema` helper (lines 173-179): `Object.assign({}, rule)` followed by
`delete rule.value`. -/
structure SchemaEntry where
  path : String
  valueType : String
  operation : List String
  observable : Option Bool
deriving DecidableEq

/-- Field-wise removal of `value` (lines 175-177). -/
def stripValue (d : Descriptor) : SchemaEntry :=
  ⟨d.path, d.valueType, d.operation, d.observable⟩

/-- The `getSchema` helper (lines 173-179).  The source returns
`JSON.stringify` of the value-stripped descriptor list; since
`JSON.stringify` is injective on records of this fixed shape (fixed key
order, string/array/boolean fields), string equality of the fingerprints
coincides with structural equality of the stripped lists, which is what
we model. -/
def getSchema (l : List Descriptor) : List SchemaEntry :=
  l.map stripValue

/-- One raw BLE characteristic as stored in `bleModel`: an object with a
`value` field and a transport handle (`char`).  The transport handle is
not needed by any modelled operation (the write path records a
`charWrite` event instead of invoking it), so only the value is kept. -/
structure RawChar where
  value : String
deriving DecidableEq

/-- The raw nested device model: service id -> characteristic id ->
characteristic, with JS object key order modelled by list order. -/
abbrev Model := List (String × List (String × RawChar))

/-- The simplified model handed to reader functions: service id ->
characteristic id -> current value (`createSimplifiedModel`). -/
abbrev SimplifiedModel := List (String × List (String × String))

/-- A byte argument passed by a writer to the `write` callback of `onPut`
(line 246): either a scalar or an array (`aData instanceof Array`). -/
inductive WriteArg where
  | scalar (b : Nat)
  | arr (bs : List Nat)
deriving DecidableEq

/-- The device's cloud definition (read/write mappings).  A reader is a JS
function from the simplified snapshot to a value; `none` models the
reader throwing (or its result's `toString()` throwing), `some v` a
successful call whose result stringifies to `v`.  A writer is modelled by
the sequence of `write(path, aData)` callback invocations it performs for
a given inbound value. -/
structure CloudDefinition where
  read : List (String × (SimplifiedModel → Option String))
  write : List (String × (String → List (String × WriteArg)))

/-- Events observable from one invocation: every `console.log` (by a short
tag) and every remote-service or transport interaction, in program
order. -/
inductive Event where
  | log (tag : String)
  | callSetResourceModel (m : List Descriptor)
  | callDeregister
  | callRegister
  | callSetValue (path value : String)
  | invokeWriter (key value : String)
  | charWrite (service char : String) (data : List Nat)
deriving DecidableEq

/-- The remote-service calls among the events (register, deregister,
setResourceModel, setValue). -/
def isRemoteCall : Event → Bool
  | .callSetResourceModel _ => true
  | .callDeregister => true
  | .callRegister => true
  | .callSetValue _ _ => true
  | _ => false

/-- Restrict a trace to the remote-service calls. -/
def remoteCalls (tr : List Event) : List Event :=
  tr.filter isRemoteCall

/-- Success/failure oracle for the remote-service calls issued during one
invocation (each call either resolves or rejects). -/
structure RemoteEnv where
  setResourceModelOk : Bool
  deregisterOk : Bool
  registerOk : Bool
  setValueOk : String → String → Bool

/-- The mutable per-device state of `BtDeviceLinkDevice` (constructor,
lines 10-54): BLE connectivity state and error, the last reconciled
descriptor list (`this.model`), the remote service's `resources`
collection (path-keyed, modelled as a descriptor list in key order), the
`registered` flag, the single-flight flag, and the raw BLE model. -/
structure DeviceState where
  state : String
  stateError : Option String
  model : List Descriptor
  resources : List Descriptor
  registered : Bool
  modelUpdateInProgress : Bool
  bleModel : Model
deriving DecidableEq

/-- `createSimplifiedModel` (lines 133-145): each characteristic is
reduced to its current value. -/
def createSimplifiedModel (m : Model) : SimplifiedModel :=
  m.map (fun sv => (sv.1, sv.2.map (fun ch => (ch.1, ch.2.value))))

/-- `Object.keys(definition.read)` (line 100). -/
def readKeysOf (defn : CloudDefinition) : List String :=
  defn.read.map Prod.fst

/-- `Object.keys(definition.write)` (line 101). -/
def writeKeysOf (defn : CloudDefinition) : List String :=
  defn.write.map Prod.fst

/-- Helper for the first-occurrence dedup filter: `seen` holds the keys
already emitted. -/
def dedupAux (seen : List String) : List String → List String
  | [] => []
  | k :: ks => if k ∈ seen then dedupAux seen ks else k :: dedupAux (k :: seen) ks

/-- `allKeys.filter((v, i, a) => a.indexOf(v) === i)` (line 106): keep the
first occurrence of each key, preserving order. -/
def dedupKeys (l : List String) : List String :=
  dedupAux [] l

/-- Access `this.cloudDevice.resources[p]`: the resource with path `p`, if
present. -/
def findRes (res : List Descriptor) (p : String) : Option Descriptor :=
  res.find? (fun r => r.path == p)

/-- Lines 113-117: the value produced by the key's reader, `""` when the
key has no reader (the branch stringifies `''`) or when the reader (or the
`toString` of its result) throws. -/
def readValueOf (defn : CloudDefinition) (sm : SimplifiedModel) (k : String) : String :=
  match defn.read.lookup k with
  | some f => (f sm).getD ""
  | none => ""

/-- Lines 119-121: the value currently held by the remote service for the
key's path, `""` when no such resource exists. -/
def resFallback (res : List Descriptor) (k : String) : String :=
  ((findRes res ("/" ++ k)).map (fun r => r.value)).getD ""

/-- The body of the `allKeys.map` at lines 108-130, building the
descriptor for one key: operations from membership in the read/write key
sets, value from the reader (empty string when the reader is absent or
throws), with fallback to the remote service's current value for the path
when the computed value is falsy (the empty string) and such a resource
exists. -/
def mkDescriptor (defn : CloudDefinition) (res : List Descriptor)
    (sm : SimplifiedModel) (k : String) : Descriptor :=
  let readKeys := readKeysOf defn
  let writeKeys := writeKeysOf defn
  let op := (if readKeys.contains k then ["GET"] else [])
      ++ (if writeKeys.contains k then ["PUT"] else [])
  let v0 := readValueOf defn sm k
  let v : String := if v0 = "" then resFallback res k else v0
  ⟨"/" ++ k, "dynamic", op, v, if readKeys.contains k then some true else none⟩

/-- `generateLwm2mModel` (lines 97-131): simplify the snapshot, take the
deduplicated union of read keys then write keys, and build one descriptor
per key. -/
def generateLwm2mModel (defn : CloudDefinition) (res : List Descriptor)
    (m : Model) : List Descriptor :=
  let sm := createSimplifiedModel m
  (dedupKeys (readKeysOf defn ++ writeKeysOf defn)).map (mkDescriptor defn res sm)

/-- Effect of a successful `resources[p].setValue(v)` on the remote
collection, modelled from the spec: the stored value for path `p` is
replaced, nothing else changes. -/
def setRes (res : List Descriptor) (p v : String) : List Descriptor :=
  res.map (fun r => if r.path == p then { r with value := v } else r)

/-- The `oldValue` computation of the value loop (lines 206-214): the
value of the rule with the same path in the last reconciled model, else
the remote service's current value for the path, else `undefined`
(`none`). -/
def oldValueOf (old res : List Descriptor) (rule : Descriptor) : Option String :=
  match old.find? (fun r => r.path == rule.path) with
  | some oldRule => some oldRule.value
  | none => (findRes res rule.path).map (fun r => r.value)

/-- The value-update loop (lines 205-221), iterating the current
descriptor list in order.  For each changed value (while registered) the
remote setter is awaited: on success the remote value is updated and the
loop continues; on rejection the exception aborts the loop (caught at
line 225), with the call already issued; when the path has no remote
resource the property access itself throws before any call.  The boolean
result is `false` when an exception escaped the loop. -/
def valueLoop (env : RemoteEnv) (old : List Descriptor) :
    List Descriptor → DeviceState → DeviceState × List Event × Bool
  | [], s => (s, [], true)
  | rule :: rest, s =>
    if (oldValueOf old s.resources rule != some rule.value) && s.registered then
      match findRes s.resources rule.path with
      | none => (s, [Event.log "update-value"], false)
      | some _ =>
        if env.setValueOk rule.path rule.value then
          let s1 := { s with resources := setRes s.resources rule.path rule.value }
          let r := valueLoop env old rest s1
          (r.1, Event.log "update-value" :: Event.callSetValue rule.path rule.value
              :: Event.log "ok-update-value" :: r.2.1, r.2.2)
        else
          (s, [Event.log "update-value", Event.callSetValue rule.path rule.value], false)
    else
      valueLoop env old rest s

/-- The schema-change sequence (lines 186-199): `setResourceModel(curr)`,
then `deregister()`, then `register()`, each awaited; a rejection aborts
the remainder (the exception propagates to the catch).  A successful
`setResourceModel` replaces the remote `resources` collection with the
pushed list (modelled from the spec's interface description).  The
boolean result is `false` when a step rejected. -/
def schemaSeq (env : RemoteEnv) (curr : List Descriptor) (s : DeviceState) :
    DeviceState × List Event × Bool :=
  let tr0 := [Event.log "schema-change", Event.log "setResourceModel",
      Event.callSetResourceModel curr]
  if env.setResourceModelOk then
    let s1 := { s with resources := curr }
    let tr1 := tr0 ++ [Event.log "ok-setResourceModel", Event.log "deregister",
        Event.callDeregister]
    if env.deregisterOk then
      let tr2 := tr1 ++ [Event.log "ok-deregister", Event.log "register",
          Event.callRegister]
      if env.registerOk then (s1, tr2 ++ [Event.log "ok-register"], true)
      else (s1, tr2, false)
    else (s1, tr1, false)
  else (s, tr0, false)

/-- The body of the async IIFE after the single-flight check and
`modelUpdateInProgress = true` (lines 168-228): compare the schema of the
freshly generated list against the schema of the resources the remote
service currently exposes; while registered, a difference runs the
schema-change sequence, otherwise the value loop runs.  Both the normal
paths (lines 200, 223) and the catch (lines 225-228, which also logs the
failure) clear the single-flight flag. -/
def bleCore (env : RemoteEnv) (curr old : List Descriptor) (s : DeviceState) :
    DeviceState × List Event :=
  if (getSchema curr != getSchema s.resources) && s.registered then
    let r := schemaSeq env curr s
    ({ r.1 with modelUpdateInProgress := false },
      r.2.1 ++ if r.2.2 then [] else [Event.log "model-update-failed"])
  else
    let r := valueLoop env old curr s
    ({ r.1 with modelUpdateInProgress := false },
      r.2.1 ++ if r.2.2 then [] else [Event.log "model-update-failed"])

/-- `bleModelUpdated` (lines 150-234).  Synchronous prologue: generate
`curr` from the snapshot, capture `old = this.model`, store the raw
snapshot in `this.bleModel`.  The async body then either drops the update
when one is already in flight (lines 161-164) or runs the core; the
`finally` (line 230) stores `curr` as the last reconciled model on every
path, including the drop and every failure.  The `ble-model-updated`
emitter event (line 151) is local and not traced. -/
def bleModelUpdated (defn : CloudDefinition) (env : RemoteEnv)
    (s : DeviceState) (m : Model) : DeviceState × List Event :=
  let curr := generateLwm2mModel defn s.resources m
  let old := s.model
  let s0 := { s with bleModel := m }
  if s0.modelUpdateInProgress then
    ({ s0 with model := curr }, [Event.log "drop"])
  else
    let r := bleCore env curr old { s0 with modelUpdateInProgress := true }
    ({ r.1 with model := curr }, r.2)

/-- The `statechange` handler (lines 57-80).  On `connected`: no-op when
already registered, else `register()`; on resolution the flag is set, on
rejection only a log is produced.  On `disconnected`: no-op when not
registered, else `deregister()`; whether it resolves or rejects the flag
is cleared afterwards (the trailing `.then` at line 77). -/
def onStateChange (env : RemoteEnv) (ev : String) (s : DeviceState) :
    DeviceState × List Event :=
  if ev = "connected" then
    if s.registered then (s, [])
    else if env.registerOk then
      ({ s with registered := true },
        [Event.log "registering", Event.callRegister, Event.log "registered"])
    else
      (s, [Event.log "registering", Event.callRegister, Event.log "registration-failed"])
  else if ev = "disconnected" then
    if s.registered then
      ({ s with registered := false },
        [Event.log "deregistering", Event.callDeregister,
          Event.log (if env.deregisterOk then "deregistered" else "deregistration-failed")])
    else (s, [])
  else (s, [])

/-- `updateState` (lines 88-92): store the new state and error, then emit
`statechange`, which runs the handler above. -/
def updateState (env : RemoteEnv) (st : String) (err : Option String)
    (s : DeviceState) : DeviceState × List Event :=
  onStateChange env st { s with state := st, stateError := err }

/-- `if (!(aData instanceof Array)) aData = [ aData ]` (line 247). -/
def normalizeArg : WriteArg → List Nat
  | .scalar b => [b]
  | .arr bs => bs

/-- The `write` callback handed to writers (lines 246-259): normalize the
data, split the target path into service/characteristic, and either
perform the transport write or log that the characteristic was not
found. -/
def bleWrite (bm : Model) (targetPath : String) (a : WriteArg) : List Event :=
  let aData := normalizeArg a
  let parts := targetPath.splitOn "/"
  let service := parts.getD 0 ""
  let char := parts.getD 1 ""
  Event.log "writing-ble-char" ::
    match (bm.lookup service).bind (fun chars => chars.lookup char) with
    | some _ => [Event.charWrite service char aData]
    | none => [Event.log "char-not-found"]

/-- `onPut` (lines 236-262): an inbound remote write for `path` is ignored
with a single log line when the write mapping has no entry for the path's
key (the path minus its leading slash); otherwise the write is logged and
the writer invoked with the value and the `write` callback. -/
def onPut (defn : CloudDefinition) (bm : Model) (path value : String) :
    List Event :=
  match defn.write.lookup (path.drop 1) with
  | none => [Event.log "no-write-rule"]
  | some w =>
    Event.log "write-from-cloud" :: Event.invokeWriter (path.drop 1) value ::
      ((w value).map (fun c => bleWrite bm c.1 c.2)).flatten

/-- The setValue calls a run of the value loop would issue if every entry
whose value differs from its recorded old value were pushed, in list
order.  Used to specify the loop's trace. -/
def changedCalls (old res rules : List Descriptor) : List Event :=
  (rules.filter (fun r => oldValueOf old res r != some r.value)).map
    (fun r => Event.callSetValue r.path r.value)

/-
Concrete fixtures used by counterexamples and witnesses.
-/

/-- Reader of the spec scenario translated against the simplified
snapshot shape: `snap => snap.svc.c1` picks the characteristic's current
value. -/
def rdDirect : SimplifiedModel → Option String :=
  fun sm => (sm.lookup "svc").bind (fun sv => sv.lookup "c1")

/-- Faithful translation of the spec scenario's reader
`snap => snap.svc.c1.value`.  The reader runs on the simplified snapshot,
where `snap.svc.c1` is already the primitive value (`21`), so `.value`
yields `undefined` and the subsequent `toString()` at line 115 throws;
when `svc` or `c1` is missing the property chain throws directly.  Either
way the call is modelled by `none`. -/
def rdDotValue : SimplifiedModel → Option String :=
  fun sm =>
    match (sm.lookup "svc").bind (fun sv => sv.lookup "c1") with
    | some _ => none
    | none => none

/-- The spec scenario's cloud definition with the reader translated to the
simplified-snapshot shape. -/
def cdTemp : CloudDefinition := ⟨[("temp", rdDirect)], []⟩

/-- The spec scenario's cloud definition with the reader translated
verbatim (`snap.svc.c1.value`). -/
def cdTempDotValue : CloudDefinition := ⟨[("temp", rdDotValue)], []⟩

/-- The spec scenario's raw snapshot `{svc: {c1: {value: 21}}}` (the JS
number `21` stringifies to `"21"`). -/
def mdlTemp : Model := [("svc", [("c1", ⟨"21"⟩)])]

/-- An empty raw snapshot. -/
def mdl0 : Model := []

/-- A definition with two constant readers, used by the reconciliation
fixtures. -/
def cdAB : CloudDefinition :=
  ⟨[("a", fun _ => some "1"), ("b", fun _ => some "2")], []⟩

/-- Remote resources for `cdAB` whose schema matches the generated one but
whose values are stale. -/
def resAB : List Descriptor :=
  [⟨"/a", "dynamic", ["GET"], "0", some true⟩,
   ⟨"/b", "dynamic", ["GET"], "0", some true⟩]

/-- An environment where every remote call succeeds. -/
def envOk : RemoteEnv := ⟨true, true, true, fun _ _ => true⟩

/-- An environment where only `setValue` on path `/a` rejects. -/
def envFailA : RemoteEnv := ⟨true, true, true, fun p _ => p != "/a"⟩

/-- An environment where `deregister` rejects. -/
def envDeregFail : RemoteEnv := ⟨true, false, true, fun _ _ => true⟩

/-- A connected, registered, idle device bound to `resAB`. -/
def stAB : DeviceState := ⟨"connected", none, [], resAB, true, false, []⟩

/-- A connected, registered, idle device with no remote resources yet. -/
def stEmpty : DeviceState := ⟨"connected", none, [], [], true, false, []⟩

/-- A device with a reconciliation already in flight. -/
def stBusy : DeviceState := ⟨"connected", none, [], [], true, true, []⟩

/-- A definition whose single reader always throws. -/
def cdThrow : CloudDefinition := ⟨[("t", fun _ => none)], []⟩

/-- A remote resource holding a value for `/t`. -/
def resT : List Descriptor := [⟨"/t", "dynamic", ["GET"], "X", some true⟩]

/-- The descriptor list `generateLwm2mModel cdAB resAB mdl0` produces: both
values differ from the stale remote values in `resAB`. -/
def rulesAB : List Descriptor :=
  [⟨"/a", "dynamic", ["GET"], "1", some true⟩,
   ⟨"/b", "dynamic", ["GET"], "2", some true⟩]

/-
Helper lemmas.
-/

theorem mem_of_mem_dedupAux {x : String} :
    ∀ {l seen : List String}, x ∈ dedupAux seen l → x ∈ l ∧ x ∉ seen := by
  intro l
  induction l with
  | nil => intro seen h; simp [dedupAux] at h
  | cons k ks ih =>
    intro seen h
    by_cases hk : k ∈ seen
    · simp only [dedupAux, if_pos hk] at h
      rcases ih h with ⟨h1, h2⟩
      exact ⟨List.mem_cons_of_mem _ h1, h2⟩
    · simp only [dedupAux, if_neg hk] at h
      rcases List.mem_cons.1 h with rfl | h
      · exact ⟨List.mem_cons_self _ _, hk⟩
      · rcases ih h with ⟨h1, h2⟩
        refine ⟨List.mem_cons_of_mem _ h1, fun hx => h2 ?_⟩
        exact List.mem_cons_of_mem _ hx

theorem nodup_dedupAux : ∀ (l seen : List String), (dedupAux seen l).Nodup := by
  intro l
  induction l with
  | nil => intro seen; simp [dedupAux]
  | cons k ks ih =>
    intro seen
    by_cases hk : k ∈ seen
    · simpa [dedupAux, if_pos hk] using ih seen
    · simp only [dedupAux, if_neg hk]
      refine List.nodup_cons.2 ⟨fun hmem => ?_, ih (k :: seen)⟩
      exact (mem_of_mem_dedupAux hmem).2 (List.mem_cons_self _ _)

theorem nodup_dedupKeys (l : List String) : (dedupKeys l).Nodup :=
  nodup_dedupAux l []

theorem slash_append_inj {a b : String} (h : "/" ++ a = "/" ++ b) : a = b := by
  have hd : ("/" ++ a).data = ("/" ++ b).data := congrArg String.data h
  rw [String.data_append, String.data_append] at hd
  exact String.ext (List.append_cancel_left hd)

theorem findRes_isSome_iff {res : List Descriptor} {p : String} :
    (findRes res p).isSome = true ↔ p ∈ res.map (fun r => r.path) := by
  induction res with
  | nil => simp [findRes]
  | cons r rs ih =>
    simp only [findRes] at ih
    by_cases h : r.path = p
    · simp [findRes, List.find?_cons, beq_iff_eq.2 h, h]
    · simp only [findRes, List.find?_cons, beq_false_of_ne h, List.map_cons, List.mem_cons]
      rw [ih]
      exact ⟨Or.inr, fun hor => hor.resolve_left (fun hp => h hp.symm)⟩

theorem setRes_path_eq {r : Descriptor} {p v : String} :
    (if (r.path == p) = true then { r with value := v } else r).path = r.path := by
  split <;> rfl

theorem find?_path_map {g : Descriptor → Descriptor} (hg : ∀ r, (g r).path = r.path)
    (res : List Descriptor) (q : String) :
    (res.map g).find? (fun r => r.path == q) = (res.find? (fun r => r.path == q)).map g := by
  induction res with
  | nil => rfl
  | cons r rs ih =>
    simp only [List.map_cons, List.find?]
    rw [hg r]
    cases hqb : (r.path == q) with
    | true => rfl
    | false => exact ih

theorem findRes_setRes {res : List Descriptor} {p q v : String} :
    findRes (setRes res p v) q
      = (findRes res q).map
          (fun r => if (r.path == p) = true then { r with value := v } else r) := by
  have := find?_path_map (g := fun r => if (r.path == p) = true then { r with value := v } else r)
    (fun r => setRes_path_eq) res q
  simpa [findRes, setRes] using this

theorem findRes_setRes_ne {res : List Descriptor} {p q v : String} (h : p ≠ q) :
    findRes (setRes res p v) q = findRes res q := by
  rw [findRes_setRes]
  cases hfind : findRes res q with
  | none => rfl
  | some r =>
    have hfind2 : res.find? (fun r => r.path == q) = some r := hfind
    have hr : (r.path == q) = true := by
      have h0 := List.find?_some hfind2
      simpa using h0
    have hrp : r.path ≠ p := fun hh => h (by rw [← hh]; exact beq_iff_eq.1 hr)
    have hc : ¬ ((r.path == p) = true) := by simp [beq_false_of_ne hrp]
    simp only [Option.map]
    rw [if_neg hc]

theorem findRes_setRes_self {res : List Descriptor} {p v : String} :
    findRes (setRes res p v) p = (findRes res p).map (fun r => { r with value := v }) := by
  rw [findRes_setRes]
  cases hfind : findRes res p with
  | none => rfl
  | some r =>
    have hfind2 : res.find? (fun r => r.path == p) = some r := hfind
    have hr : (r.path == p) = true := by
      have h0 := List.find?_some hfind2
      simpa using h0
    simp only [Option.map]
    rw [if_pos hr]

theorem stripValue_update {r : Descriptor} {v : String} :
    stripValue { r with value := v } = stripValue r := rfl

theorem getSchema_setRes {res : List Descriptor} {p v : String} :
    getSchema (setRes res p v) = getSchema res := by
  unfold getSchema setRes
  rw [List.map_map]
  refine List.map_congr_left ?_
  intro r _
  show stripValue (if (r.path == p) = true then { r with value := v } else r) = stripValue r
  split <;> rfl

theorem mkDescriptor_path {defn : CloudDefinition} {res : List Descriptor}
    {sm : SimplifiedModel} {k : String} :
    (mkDescriptor defn res sm k).path = "/" ++ k := rfl

theorem mkDescriptor_value {defn : CloudDefinition} {res : List Descriptor}
    {sm : SimplifiedModel} {k : String} :
    (mkDescriptor defn res sm k).value
      = if readValueOf defn sm k = "" then resFallback res k
        else readValueOf defn sm k := rfl

theorem mkDescriptor_congr {defn : CloudDefinition} {res1 res2 : List Descriptor}
    {sm : SimplifiedModel} {k : String}
    (h : readValueOf defn sm k = "" → resFallback res1 k = resFallback res2 k) :
    mkDescriptor defn res1 sm k = mkDescriptor defn res2 sm k := by
  unfold mkDescriptor
  by_cases hv : readValueOf defn sm k = ""
  · simp [hv, h hv]
  · simp [hv]

theorem findRes_map_keys {ks : List String} (f : String → Descriptor)
    (hf : ∀ x, (f x).path = "/" ++ x) :
    ∀ {k}, k ∈ ks → findRes (ks.map f) ("/" ++ k) = some (f k) := by
  induction ks with
  | nil => intro k hk; simp at hk
  | cons a as ih =>
    intro k hk
    by_cases hak : a = k
    · subst hak
      simp only [findRes, List.map_cons, List.find?]
      rw [hf a, beq_self_eq_true]
    · have hne : ("/" ++ a == "/" ++ k) = false :=
        beq_false_of_ne (fun hcontra => hak (slash_append_inj hcontra))
      simp only [findRes, List.map_cons, List.find?]
      rw [hf a, hne]
      exact ih ((List.mem_cons.1 hk).resolve_left (fun hka => hak hka.symm))

theorem find_self_of_nodup {l : List Descriptor} :
    (l.map (fun r => r.path)).Nodup →
    ∀ {r}, r ∈ l → l.find? (fun x => x.path == r.path) = some r := by
  induction l with
  | nil => intro _ r hr; simp at hr
  | cons a as ih =>
    intro hnd r hr
    rcases List.mem_cons.1 hr with rfl | hr2
    · simp [List.find?]
    · have hpaths : a.path ∉ as.map (fun r => r.path) :=
        (List.nodup_cons.1 (by simpa using hnd)).1
      have hne : a.path ≠ r.path := fun hcontra => by
        exact hpaths (hcontra ▸ List.mem_map_of_mem _ hr2)
      simp only [List.find?]
      rw [beq_false_of_ne hne]
      exact ih (List.nodup_cons.1 (by simpa using hnd)).2 hr2

theorem generate_paths {defn : CloudDefinition} {res : List Descriptor} {m : Model} :
    (generateLwm2mModel defn res m).map (fun d => d.path)
      = (dedupKeys (readKeysOf defn ++ writeKeysOf defn)).map (fun k => "/" ++ k) := by
  unfold generateLwm2mModel
  rw [List.map_map]
  rfl

theorem generate_paths_nodup {defn : CloudDefinition} {res : List Descriptor} {m : Model} :
    ((generateLwm2mModel defn res m).map (fun d => d.path)).Nodup := by
  rw [generate_paths]
  exact (nodup_dedupKeys _).map (fun a b hab => slash_append_inj hab)

theorem mem_generate {defn : CloudDefinition} {res : List Descriptor} {m : Model} {k : String}
    (hk : k ∈ dedupKeys (readKeysOf defn ++ writeKeysOf defn)) :
    mkDescriptor defn res (createSimplifiedModel m) k ∈ generateLwm2mModel defn res m :=
  List.mem_map_of_mem _ hk

theorem findRes_generate {defn : CloudDefinition} {res : List Descriptor} {m : Model} {k : String}
    (hk : k ∈ dedupKeys (readKeysOf defn ++ writeKeysOf defn)) :
    findRes (generateLwm2mModel defn res m) ("/" ++ k)
      = some (mkDescriptor defn res (createSimplifiedModel m) k) :=
  findRes_map_keys _ (fun _ => rfl) hk

theorem valueLoop_fst (env : RemoteEnv) (old : List Descriptor) :
    ∀ (rules : List Descriptor) (s : DeviceState),
      (valueLoop env old rules s).1
        = { s with resources := ((valueLoop env old rules s).1).resources } := by
  intro rules
  induction rules with
  | nil => intro s; rfl
  | cons rule rest ih =>
    intro s
    simp only [valueLoop]
    by_cases hc : ((oldValueOf old s.resources rule != some rule.value) && s.registered) = true
    · simp only [hc, if_true]
      cases hfind : findRes s.resources rule.path with
      | none => rfl
      | some d =>
        by_cases henv : env.setValueOk rule.path rule.value = true
        · simp only [henv, if_true]
          exact ih _
        · simp only [henv, if_false]
          rfl
    · simp only [Bool.not_eq_true] at hc
      simp only [hc, Bool.false_eq_true, if_false]
      exact ih s

theorem valueLoop_master (env : RemoteEnv) (old : List Descriptor) :
    ∀ (rules : List Descriptor) (st : String) (se : Option String)
      (mo res : List Descriptor) (reg fl : Bool) (bm : Model)
      (st2 : String) (se2 : Option String) (mo2 : List Descriptor) (bm2 : Model),
      valueLoop env old rules ⟨st2, se2, mo2, res, reg, fl, bm2⟩
        = (⟨st2, se2, mo2,
            ((valueLoop env old rules ⟨st, se, mo, res, reg, fl, bm⟩).1).resources,
            reg, fl, bm2⟩,
           (valueLoop env old rules ⟨st, se, mo, res, reg, fl, bm⟩).2) := by
  intro rules
  induction rules with
  | nil => intro st se mo res reg fl bm st2 se2 mo2 bm2; rfl
  | cons rule rest ih =>
    intro st se mo res reg fl bm st2 se2 mo2 bm2
    simp only [valueLoop]
    by_cases hc : ((oldValueOf old res rule != some rule.value) && reg) = true
    · simp only [hc, if_true]
      cases hfind : findRes res rule.path with
      | none => rfl
      | some d =>
        by_cases henv : env.setValueOk rule.path rule.value = true
        · simp only [henv, if_true]
          rw [ih st se mo (setRes res rule.path rule.value) reg fl bm st2 se2 mo2 bm2]
        · simp only [henv, if_false]
          rfl
    · simp only [Bool.not_eq_true] at hc
      simp only [hc, Bool.false_eq_true, if_false]
      exact ih st se mo res reg fl bm st2 se2 mo2 bm2

theorem getSchema_valueLoop (env : RemoteEnv) (old : List Descriptor) :
    ∀ (rules : List Descriptor) (s : DeviceState),
      getSchema (((valueLoop env old rules s).1).resources) = getSchema s.resources := by
  intro rules
  induction rules with
  | nil => intro s; rfl
  | cons rule rest ih =>
    intro s
    simp only [valueLoop]
    by_cases hc : ((oldValueOf old s.resources rule != some rule.value) && s.registered) = true
    · simp only [hc, if_true]
      cases hfind : findRes s.resources rule.path with
      | none => rfl
      | some d =>
        by_cases henv : env.setValueOk rule.path rule.value = true
        · simp only [henv, if_true]
          exact (ih _).trans getSchema_setRes
        · simp only [henv, if_false]
          rfl
    · simp only [Bool.not_eq_true] at hc
      simp only [hc, Bool.false_eq_true, if_false]
      exact ih s

theorem valueLoop_findRes_frame (env : RemoteEnv) (old : List Descriptor) :
    ∀ (rules : List Descriptor) (s : DeviceState) (p : String),
      p ∉ rules.map (fun r => r.path) →
      findRes (((valueLoop env old rules s).1).resources) p = findRes s.resources p := by
  intro rules
  induction rules with
  | nil => intro s p _; rfl
  | cons rule rest ih =>
    intro s p hp
    have hp1 : p ≠ rule.path := by
      intro hcontra
      exact hp (by simp [hcontra])
    have hp2 : p ∉ rest.map (fun r => r.path) := by
      intro hcontra
      exact hp (by simp [hcontra])
    simp only [valueLoop]
    by_cases hc : ((oldValueOf old s.resources rule != some rule.value) && s.registered) = true
    · simp only [hc, if_true]
      cases hfind : findRes s.resources rule.path with
      | none => rfl
      | some d =>
        by_cases henv : env.setValueOk rule.path rule.value = true
        · simp only [henv, if_true]
          exact (ih _ p hp2).trans (findRes_setRes_ne (fun h => hp1 h.symm))
        · simp only [henv, if_false]
          rfl
    · simp only [Bool.not_eq_true] at hc
      simp only [hc, Bool.false_eq_true, if_false]
      exact ih s p hp2

theorem valueLoop_value_at (env : RemoteEnv) (old : List Descriptor) :
    ∀ (rules : List Descriptor) (s : DeviceState) (r0 : Descriptor),
      (rules.map (fun r => r.path)).Nodup → r0 ∈ rules →
      ((findRes (((valueLoop env old rules s).1).resources) r0.path).map (fun r => r.value)
          = (findRes s.resources r0.path).map (fun r => r.value))
      ∨ ((findRes (((valueLoop env old rules s).1).resources) r0.path).map (fun r => r.value)
          = some r0.value) := by
  intro rules
  induction rules with
  | nil => intro s r0 _ hr; simp at hr
  | cons rule rest ih =>
    intro s r0 hnd hr
    have hnd1 : rule.path ∉ rest.map (fun r => r.path) :=
      (List.nodup_cons.1 (by simpa using hnd)).1
    have hnd2 : (rest.map (fun r => r.path)).Nodup :=
      (List.nodup_cons.1 (by simpa using hnd)).2
    simp only [valueLoop]
    by_cases hc : ((oldValueOf old s.resources rule != some rule.value) && s.registered) = true
    · simp only [hc, if_true]
      cases hfind : findRes s.resources rule.path with
      | none =>
        exact Or.inl rfl
      | some d =>
        by_cases henv : env.setValueOk rule.path rule.value = true
        · simp only [henv, if_true]
          rcases List.mem_cons.1 hr with rfl | hr2
          · -- the head itself: its resource is set to the head's value and the
            -- rest of the loop leaves that path alone
            refine Or.inr ?_
            have hrest := valueLoop_findRes_frame env old rest
              { s with resources := setRes s.resources r0.path r0.value } r0.path hnd1
            rw [hrest]
            have : findRes (setRes s.resources r0.path r0.value) r0.path
                = (findRes s.resources r0.path).map (fun r => { r with value := r0.value }) :=
              findRes_setRes_self
            rw [this, hfind]
            rfl
          · -- an element of the tail: the head's update does not touch its path
            have hne : r0.path ≠ rule.path := by
              intro hcontra
              exact hnd1 (hcontra ▸ List.mem_map_of_mem _ hr2)
            have hstep : findRes (setRes s.resources rule.path rule.value) r0.path
                = findRes s.resources r0.path :=
              findRes_setRes_ne (fun h => hne h.symm)
            rcases ih { s with resources := setRes s.resources rule.path rule.value } r0 hnd2 hr2 with h1 | h1
            · exact Or.inl (by rw [h1]; simp only [hstep])
            · exact Or.inr h1
        · simp only [henv, if_false]
          exact Or.inl rfl
    · simp only [Bool.not_eq_true] at hc
      simp only [hc, Bool.false_eq_true, if_false]
      rcases List.mem_cons.1 hr with rfl | hr2
      · exact Or.inl (congrArg (Option.map (fun r => r.value)) (valueLoop_findRes_frame env old rest s r0.path hnd1))
      · exact ih s r0 hnd2 hr2

theorem valueLoop_not_registered (env : RemoteEnv) (old : List Descriptor) :
    ∀ (rules : List Descriptor) (s : DeviceState), s.registered = false →
      valueLoop env old rules s = (s, [], true) := by
  intro rules
  induction rules with
  | nil => intro s _; rfl
  | cons rule rest ih =>
    intro s hreg
    simp only [valueLoop, hreg, Bool.and_false, Bool.false_eq_true, if_false]
    exact ih s hreg

theorem valueLoop_stable (env : RemoteEnv) (old : List Descriptor) :
    ∀ (rules : List Descriptor) (s : DeviceState),
      (∀ r ∈ rules, old.find? (fun x => x.path == r.path) = some r) →
      valueLoop env old rules s = (s, [], true) := by
  intro rules
  induction rules with
  | nil => intro s _; rfl
  | cons rule rest ih =>
    intro s h
    have hhead : oldValueOf old s.resources rule = some rule.value := by
      unfold oldValueOf
      rw [h rule (List.mem_cons_self _ _)]
    simp only [valueLoop, hhead, bne_self_eq_false, Bool.false_and, Bool.false_eq_true, if_false]
    exact ih s (fun r hr => h r (List.mem_cons_of_mem _ hr))

theorem valueLoop_registered (env : RemoteEnv) (old rules : List Descriptor) (s : DeviceState) :
    ((valueLoop env old rules s).1).registered = s.registered := by
  rw [valueLoop_fst]

theorem valueLoop_flag (env : RemoteEnv) (old rules : List Descriptor) (s : DeviceState) :
    ((valueLoop env old rules s).1).modelUpdateInProgress = s.modelUpdateInProgress := by
  rw [valueLoop_fst]

theorem schemaSeq_fst (env : RemoteEnv) (curr : List Descriptor) (s : DeviceState) :
    (schemaSeq env curr s).1 = { s with resources := ((schemaSeq env curr s).1).resources } := by
  unfold schemaSeq
  split_ifs <;> rfl

theorem schemaSeq_registered (env : RemoteEnv) (curr : List Descriptor) (s : DeviceState) :
    ((schemaSeq env curr s).1).registered = s.registered := by
  unfold schemaSeq
  split_ifs <;> rfl

theorem schemaSeq_frame (env : RemoteEnv) (curr : List Descriptor) :
    ∀ (st : String) (se : Option String) (mo res : List Descriptor) (reg fl : Bool) (bm : Model)
      (st2 : String) (se2 : Option String) (mo2 : List Descriptor) (bm2 : Model),
      schemaSeq env curr ⟨st2, se2, mo2, res, reg, fl, bm2⟩
        = (⟨st2, se2, mo2,
            ((schemaSeq env curr ⟨st, se, mo, res, reg, fl, bm⟩).1).resources,
            reg, fl, bm2⟩,
           (schemaSeq env curr ⟨st, se, mo, res, reg, fl, bm⟩).2) := by
  intro st se mo res reg fl bm st2 se2 mo2 bm2
  unfold schemaSeq
  split_ifs <;> rfl

theorem schemaSeq_allOk (env : RemoteEnv) (curr : List Descriptor) (s : DeviceState)
    (h1 : env.setResourceModelOk = true) (h2 : env.deregisterOk = true)
    (h3 : env.registerOk = true) :
    schemaSeq env curr s
      = ({ s with resources := curr },
         [Event.log "schema-change", Event.log "setResourceModel",
          Event.callSetResourceModel curr, Event.log "ok-setResourceModel",
          Event.log "deregister", Event.callDeregister, Event.log "ok-deregister",
          Event.log "register", Event.callRegister, Event.log "ok-register"],
         true) := by
  simp [schemaSeq, h1, h2, h3]

theorem bleCore_registered (env : RemoteEnv) (curr old : List Descriptor) (s : DeviceState) :
    ((bleCore env curr old s).1).registered = s.registered := by
  unfold bleCore
  split_ifs with h
  · show ((schemaSeq env curr s).1).registered = s.registered
    exact schemaSeq_registered env curr s
  · show ((valueLoop env old curr s).1).registered = s.registered
    exact valueLoop_registered env old curr s

theorem bleCore_flag (env : RemoteEnv) (curr old : List Descriptor) (s : DeviceState) :
    ((bleCore env curr old s).1).modelUpdateInProgress = false := by
  unfold bleCore
  split_ifs with h <;> rfl

theorem bleModelUpdated_preserves_registered (defn : CloudDefinition) (env : RemoteEnv)
    (s : DeviceState) (m : Model) :
    ((bleModelUpdated defn env s m).1).registered = s.registered := by
  by_cases h : s.modelUpdateInProgress = true <;>
    simp [bleModelUpdated, h, bleCore_registered]

theorem generate_congr {defn : CloudDefinition} {res1 res2 : List Descriptor} {m : Model}
    (h : ∀ k ∈ dedupKeys (readKeysOf defn ++ writeKeysOf defn),
      readValueOf defn (createSimplifiedModel m) k = "" → resFallback res1 k = resFallback res2 k) :
    generateLwm2mModel defn res1 m = generateLwm2mModel defn res2 m := by
  unfold generateLwm2mModel
  exact List.map_congr_left (fun k hk => mkDescriptor_congr (h k hk))

theorem generate_after_self (defn : CloudDefinition) (res : List Descriptor) (m : Model) :
    generateLwm2mModel defn (generateLwm2mModel defn res m) m
      = generateLwm2mModel defn res m := by
  apply generate_congr
  intro k hk hv
  unfold resFallback
  rw [findRes_generate hk]
  simp only [Option.map_some', Option.getD_some]
  rw [mkDescriptor_value, if_pos hv]
  unfold resFallback
  rfl

theorem generate_after_valueLoop (defn : CloudDefinition) (env : RemoteEnv) (m : Model)
    (old : List Descriptor) (s : DeviceState) :
    generateLwm2mModel defn
        (((valueLoop env old (generateLwm2mModel defn s.resources m) s).1).resources) m
      = generateLwm2mModel defn s.resources m := by
  apply generate_congr
  intro k hk hv
  have hr0mem : mkDescriptor defn s.resources (createSimplifiedModel m) k
      ∈ generateLwm2mModel defn s.resources m := mem_generate hk
  have hval := valueLoop_value_at env old (generateLwm2mModel defn s.resources m) s
    (mkDescriptor defn s.resources (createSimplifiedModel m) k)
    generate_paths_nodup hr0mem
  rw [show (mkDescriptor defn s.resources (createSimplifiedModel m) k).path = "/" ++ k from rfl]
    at hval
  rcases hval with h1 | h1
  · unfold resFallback
    rw [h1]
  · unfold resFallback
    rw [h1]
    simp only [Option.getD_some]
    rw [mkDescriptor_value, if_pos hv]
    unfold resFallback
    rfl

/-
Claim theorems.
-/

/-- C10: snapshot reconciliation never writes the `registered` flag: for
every environment (every success/failure combination of the remote calls,
including a failing `register()` after a successful `deregister()` in the
schema-change sequence) and every starting state, the flag after
`bleModelUpdated` equals the flag before. -/
theorem C10_registered_frame (defn : CloudDefinition) (env : RemoteEnv)
    (s : DeviceState) (m : Model) :
    ((bleModelUpdated defn env s m).1).registered = s.registered :=
  bleModelUpdated_preserves_registered defn env s m

/-- C8: on a connectivity transition to `disconnected`, an unregistered
device performs no calls, and a registered device issues exactly one
`deregister()` call and ends unregistered, whether the call resolves or
rejects (the environment is universally quantified). -/
theorem C8_disconnect (env : RemoteEnv) (err : Option String) (s : DeviceState) :
    (s.registered = false →
      updateState env "disconnected" err s
        = ({ s with state := "disconnected", stateError := err }, []))
    ∧ (s.registered = true →
      remoteCalls ((updateState env "disconnected" err s).2) = [Event.callDeregister]
      ∧ ((updateState env "disconnected" err s).1).registered = false) := by
  constructor
  · intro h
    simp [updateState, onStateChange, h]
  · intro h
    cases henv : env.deregisterOk <;>
      simp [updateState, onStateChange, h, henv, remoteCalls, isRemoteCall]

/-- Witness for C8 at a concrete registered device whose deregister call
rejects: still exactly one deregister call and the flag cleared. -/
theorem C8_disconnect_witness :
    remoteCalls ((updateState envDeregFail "disconnected" none stAB).2) = [Event.callDeregister]
    ∧ ((updateState envDeregFail "disconnected" none stAB).1).registered = false :=
  (C8_disconnect envDeregFail none stAB).2 rfl

/-- C9: an inbound remote write whose key (path minus the leading slash)
has no write-mapping entry is ignored with exactly one log line: the
handler's whole observable behaviour is that single log event, so no
writer is invoked, no transport characteristic write happens, no remote
call is made, and nothing is thrown (the handler returns normally). -/
theorem C9_unknown_write (defn : CloudDefinition) (bm : Model) (path value : String)
    (h : defn.write.lookup (path.drop 1) = none) :
    onPut defn bm path value = [Event.log "no-write-rule"]
    ∧ remoteCalls (onPut defn bm path value) = []
    ∧ (∀ sv ch data, Event.charWrite sv ch data ∉ onPut defn bm path value)
    ∧ (∀ k v, Event.invokeWriter k v ∉ onPut defn bm path value) := by
  have h1 : onPut defn bm path value = [Event.log "no-write-rule"] := by
    unfold onPut
    rw [h]
  refine ⟨h1, ?_, ?_, ?_⟩ <;> simp [h1, remoteCalls, isRemoteCall]

/-- Witness for C9: a write for `/temp` against a definition with no write
rules yields the single log event. -/
theorem C9_unknown_write_witness :
    onPut cdAB [] "/temp" "x" = [Event.log "no-write-rule"] :=
  (C9_unknown_write cdAB [] "/temp" "x" rfl).1

/-- C5: the schema fingerprint ignores the `value` field (rewriting every
descriptor's value leaves the fingerprint unchanged), and any difference
in `path`, `operation` or `observable` at one position makes the
fingerprints differ. -/
theorem C5_fingerprint :
    (∀ (l : List Descriptor) (f : Descriptor → String),
      getSchema (l.map (fun d => { d with value := f d })) = getSchema l)
    ∧ (∀ (l1 l2 : List Descriptor) (i : Nat) (h1 : i < l1.length) (h2 : i < l2.length),
      ((l1.get ⟨i, h1⟩).path ≠ (l2.get ⟨i, h2⟩).path
        ∨ (l1.get ⟨i, h1⟩).operation ≠ (l2.get ⟨i, h2⟩).operation
        ∨ (l1.get ⟨i, h1⟩).observable ≠ (l2.get ⟨i, h2⟩).observable) →
      getSchema l1 ≠ getSchema l2) := by
  constructor
  · intro l f
    unfold getSchema
    rw [List.map_map]
    exact List.map_congr_left (fun d _ => rfl)
  · intro l1 l2 i h1 h2 hdiff heq
    have e1 : (getSchema l1)[i]? = (getSchema l2)[i]? := by rw [heq]
    unfold getSchema at e1
    rw [List.getElem?_map, List.getElem?_map, List.getElem?_eq_getElem h1,
      List.getElem?_eq_getElem h2] at e1
    have e2 : stripValue (l1.get ⟨i, h1⟩) = stripValue (l2.get ⟨i, h2⟩) := by
      simpa using e1
    rcases hdiff with hd | hd | hd
    · exact hd (congrArg SchemaEntry.path e2)
    · exact hd (congrArg SchemaEntry.operation e2)
    · exact hd (congrArg SchemaEntry.observable e2)

/-- Witness for C5 on the spec scenario: `["GET"]` versus `["GET","PUT"]`
at position 0 gives different fingerprints. -/
theorem C5_fingerprint_witness :
    getSchema [⟨"/temp", "dynamic", ["GET"], "21", some true⟩]
      ≠ getSchema [⟨"/temp", "dynamic", ["GET", "PUT"], "21", some true⟩] :=
  C5_fingerprint.2 [⟨"/temp", "dynamic", ["GET"], "21", some true⟩]
    [⟨"/temp", "dynamic", ["GET", "PUT"], "21", some true⟩] 0
    (by decide) (by decide) (by decide)

/-- C7: when a key's reader is absent or throws, the build still produces
that key's descriptor (no abort), and its value is the remote service's
current value for the path when such a resource exists and the empty
string otherwise. -/
theorem C7_reader_fallback (defn : CloudDefinition) (res : List Descriptor) (m : Model)
    (k : String)
    (hk : k ∈ dedupKeys (readKeysOf defn ++ writeKeysOf defn))
    (hthrow : ((defn.read.lookup k).bind (fun f => f (createSimplifiedModel m))) = none) :
    mkDescriptor defn res (createSimplifiedModel m) k ∈ generateLwm2mModel defn res m
    ∧ (mkDescriptor defn res (createSimplifiedModel m) k).value
        = ((findRes res ("/" ++ k)).map (fun r => r.value)).getD "" := by
  have hv : readValueOf defn (createSimplifiedModel m) k = "" := by
    unfold readValueOf
    cases hl : defn.read.lookup k with
    | none => rfl
    | some f =>
      rw [hl] at hthrow
      have hf : f (createSimplifiedModel m) = none := hthrow
      show (f (createSimplifiedModel m)).getD "" = ""
      rw [hf]
      rfl
  refine ⟨mem_generate hk, ?_⟩
  rw [mkDescriptor_value, if_pos hv]
  rfl

/-- Witness for C7: a throwing reader for key `t` with a remote resource
holding `"X"` yields a descriptor carrying `"X"`. -/
theorem C7_reader_fallback_witness :
    mkDescriptor cdThrow resT (createSimplifiedModel mdl0) "t"
      ∈ generateLwm2mModel cdThrow resT mdl0
    ∧ (mkDescriptor cdThrow resT (createSimplifiedModel mdl0) "t").value
        = ((findRes resT ("/" ++ "t")).map (fun r => r.value)).getD "" :=
  C7_reader_fallback cdThrow resT mdl0 "t" (by decide) rfl

/-- C3: when the fresh snapshot's schema fingerprint differs from the
fingerprint of the resources the remote service currently exposes, the
device is registered, and no reconciliation is in flight, the invocation
issues exactly `setResourceModel(curr)`, `deregister()`, `register()` in
that order, cut short after the first rejected step, and the `registered`
flag is still set afterwards; with all three steps succeeding the remote
calls are exactly the three, in that strict order. -/
theorem C3_schema_change (defn : CloudDefinition) (env : RemoteEnv) (s : DeviceState)
    (m : Model)
    (hflag : s.modelUpdateInProgress = false)
    (hreg : s.registered = true)
    (hschema : getSchema (generateLwm2mModel defn s.resources m) ≠ getSchema s.resources) :
    remoteCalls ((bleModelUpdated defn env s m).2)
      = Event.callSetResourceModel (generateLwm2mModel defn s.resources m)
        :: (if env.setResourceModelOk then
              Event.callDeregister :: (if env.deregisterOk then [Event.callRegister] else [])
            else [])
    ∧ ((bleModelUpdated defn env s m).1).registered = true
    ∧ (env.setResourceModelOk = true → env.deregisterOk = true → env.registerOk = true →
        remoteCalls ((bleModelUpdated defn env s m).2)
          = [Event.callSetResourceModel (generateLwm2mModel defn s.resources m),
             Event.callDeregister, Event.callRegister]) := by
  have hb : (getSchema (generateLwm2mModel defn s.resources m)
      != getSchema s.resources) = true := bne_iff_ne.2 hschema
  refine ⟨?_, ?_, ?_⟩
  · cases henv1 : env.setResourceModelOk <;> cases henv2 : env.deregisterOk <;>
      cases henv3 : env.registerOk <;>
      simp [bleModelUpdated, bleCore, schemaSeq, hflag, hreg, hb, henv1, henv2, henv3,
        remoteCalls, isRemoteCall]
  · rw [bleModelUpdated_preserves_registered]
    exact hreg
  · intro h1 h2 h3
    simp [bleModelUpdated, bleCore, schemaSeq, hflag, hreg, hb, h1, h2, h3,
      remoteCalls, isRemoteCall]

/-- Witness for C3: an empty remote resource list against two readable
keys is a schema change; with every call succeeding the trace is exactly
the three calls. -/
theorem C3_schema_change_witness :
    remoteCalls ((bleModelUpdated cdAB envOk stEmpty mdl0).2)
      = [Event.callSetResourceModel (generateLwm2mModel cdAB stEmpty.resources mdl0),
         Event.callDeregister, Event.callRegister] :=
  (C3_schema_change cdAB envOk stEmpty mdl0 rfl rfl (by decide)).2.2 rfl rfl rfl

/-- C1: while a reconciliation is in flight, a newly arriving snapshot is
dropped: that invocation's trace is the single drop log (in particular no
remote-service call), and its only state writes are `bleModel` and the
`finally`-installed `model`.  Nothing is queued: the state has no queue
field, and the remainder of the in-flight invocation — its pending value
loop or schema steps followed by the core epilogue — neither reads
`model` nor `bleModel` (the frame equalities below), and finishes by
overwriting `model` with its own descriptor list, while later invocations
of `bleModelUpdated` are insensitive to the stored `bleModel`; hence the
dropped snapshot's data cannot influence any later reconciliation. -/
theorem C1_inflight_drop (defn : CloudDefinition) (env : RemoteEnv) (s : DeviceState)
    (m : Model) (h : s.modelUpdateInProgress = true) :
    (bleModelUpdated defn env s m).2 = [Event.log "drop"]
    ∧ remoteCalls ((bleModelUpdated defn env s m).2) = []
    ∧ (bleModelUpdated defn env s m).1
        = { s with bleModel := m, model := generateLwm2mModel defn s.resources m }
    ∧ (∀ (env2 : RemoteEnv) (old2 rules2 : List Descriptor) (s2 : DeviceState)
        (mo : List Descriptor) (bl : Model),
        valueLoop env2 old2 rules2 { s2 with model := mo, bleModel := bl }
          = ({ (valueLoop env2 old2 rules2 s2).1 with model := mo, bleModel := bl },
             (valueLoop env2 old2 rules2 s2).2))
    ∧ (∀ (env2 : RemoteEnv) (curr2 : List Descriptor) (s2 : DeviceState)
        (mo : List Descriptor) (bl : Model),
        schemaSeq env2 curr2 { s2 with model := mo, bleModel := bl }
          = ({ (schemaSeq env2 curr2 s2).1 with model := mo, bleModel := bl },
             (schemaSeq env2 curr2 s2).2))
    ∧ (∀ (env2 : RemoteEnv) (curr2 old2 : List Descriptor) (s2 : DeviceState)
        (mo : List Descriptor) (bl : Model),
        bleCore env2 curr2 old2 { s2 with model := mo, bleModel := bl }
          = ({ (bleCore env2 curr2 old2 s2).1 with model := mo, bleModel := bl },
             (bleCore env2 curr2 old2 s2).2))
    ∧ (∀ (defn2 : CloudDefinition) (env2 : RemoteEnv) (s2 : DeviceState) (m2 bl : Model),
        bleModelUpdated defn2 env2 { s2 with bleModel := bl } m2
          = bleModelUpdated defn2 env2 s2 m2) := by
  have hloop : ∀ (env2 : RemoteEnv) (old2 rules2 : List Descriptor) (s2 : DeviceState)
      (mo : List Descriptor) (bl : Model),
      valueLoop env2 old2 rules2 { s2 with model := mo, bleModel := bl }
        = ({ (valueLoop env2 old2 rules2 s2).1 with model := mo, bleModel := bl },
           (valueLoop env2 old2 rules2 s2).2) := by
    intro env2 old2 rules2 s2 mo bl
    obtain ⟨st, se, mo0, res, reg, fl, bm⟩ := s2
    show valueLoop env2 old2 rules2 ⟨st, se, mo, res, reg, fl, bl⟩
      = ({ (valueLoop env2 old2 rules2 ⟨st, se, mo0, res, reg, fl, bm⟩).1
            with model := mo, bleModel := bl },
         (valueLoop env2 old2 rules2 ⟨st, se, mo0, res, reg, fl, bm⟩).2)
    rw [valueLoop_master env2 old2 rules2 st se mo0 res reg fl bm st se mo bl]
    conv_rhs => rw [valueLoop_fst env2 old2 rules2 ⟨st, se, mo0, res, reg, fl, bm⟩]
  have hseq : ∀ (env2 : RemoteEnv) (curr2 : List Descriptor) (s2 : DeviceState)
      (mo : List Descriptor) (bl : Model),
      schemaSeq env2 curr2 { s2 with model := mo, bleModel := bl }
        = ({ (schemaSeq env2 curr2 s2).1 with model := mo, bleModel := bl },
           (schemaSeq env2 curr2 s2).2) := by
    intro env2 curr2 s2 mo bl
    obtain ⟨st, se, mo0, res, reg, fl, bm⟩ := s2
    show schemaSeq env2 curr2 ⟨st, se, mo, res, reg, fl, bl⟩
      = ({ (schemaSeq env2 curr2 ⟨st, se, mo0, res, reg, fl, bm⟩).1
            with model := mo, bleModel := bl },
         (schemaSeq env2 curr2 ⟨st, se, mo0, res, reg, fl, bm⟩).2)
    rw [schemaSeq_frame env2 curr2 st se mo0 res reg fl bm st se mo bl]
    conv_rhs => rw [schemaSeq_fst env2 curr2 ⟨st, se, mo0, res, reg, fl, bm⟩]
  have hcore : ∀ (env2 : RemoteEnv) (curr2 old2 : List Descriptor) (s2 : DeviceState)
      (mo : List Descriptor) (bl : Model),
      bleCore env2 curr2 old2 { s2 with model := mo, bleModel := bl }
        = ({ (bleCore env2 curr2 old2 s2).1 with model := mo, bleModel := bl },
           (bleCore env2 curr2 old2 s2).2) := by
    intro env2 curr2 old2 s2 mo bl
    unfold bleCore
    by_cases hb : ((getSchema curr2 != getSchema s2.resources) && s2.registered) = true
    · rw [if_pos (by simpa using hb), if_pos hb, hseq env2 curr2 s2 mo bl]
    · rw [if_neg (by simpa using hb), if_neg hb, hloop env2 old2 curr2 s2 mo bl]
  refine ⟨by simp [bleModelUpdated, h], ?_, by simp [bleModelUpdated, h], hloop, hseq, hcore, ?_⟩
  · simp [bleModelUpdated, h, remoteCalls, isRemoteCall]
  · intro defn2 env2 s2 m2 bl
    obtain ⟨st, se, mo0, res, reg, fl, bm⟩ := s2
    rfl

theorem valueLoop_calls (env : RemoteEnv) (old : List Descriptor) :
    ∀ (rules : List Descriptor) (s : DeviceState),
      s.registered = true →
      (rules.map (fun r => r.path)).Nodup →
      (∀ r ∈ rules, (findRes s.resources r.path).isSome = true) →
      (remoteCalls ((valueLoop env old rules s).2.1)
        = (changedCalls old s.resources rules).take
            (remoteCalls ((valueLoop env old rules s).2.1)).length)
      ∧ ((valueLoop env old rules s).2.2 = true →
          remoteCalls ((valueLoop env old rules s).2.1)
            = changedCalls old s.resources rules) := by
  intro rules
  induction rules with
  | nil =>
    intro s _ _ _
    exact ⟨rfl, fun _ => rfl⟩
  | cons rule rest ih =>
    intro s hreg hnd hres
    have hnd1 : rule.path ∉ rest.map (fun r => r.path) :=
      (List.nodup_cons.1 (by simpa using hnd)).1
    have hnd2 : (rest.map (fun r => r.path)).Nodup :=
      (List.nodup_cons.1 (by simpa using hnd)).2
    by_cases hch : (oldValueOf old s.resources rule != some rule.value) = true
    · have hcond : ((oldValueOf old s.resources rule != some rule.value) && s.registered)
          = true := by rw [hch, hreg]; rfl
      have hsome := hres rule (List.mem_cons_self _ _)
      obtain ⟨d, hd⟩ := Option.isSome_iff_exists.1 hsome
      have hcc : changedCalls old s.resources (rule :: rest)
          = Event.callSetValue rule.path rule.value :: changedCalls old s.resources rest := by
        unfold changedCalls
        rw [List.filter_cons, if_pos hch]
        rfl
      by_cases henv : env.setValueOk rule.path rule.value = true
      · have hstab : changedCalls old (setRes s.resources rule.path rule.value) rest
            = changedCalls old s.resources rest := by
          unfold changedCalls
          refine congrArg _ (List.filter_congr ?_)
          intro r hr
          have hneq : r.path ≠ rule.path := fun hcontra =>
            hnd1 (hcontra ▸ List.mem_map_of_mem _ hr)
          unfold oldValueOf
          rw [findRes_setRes_ne (fun hx => hneq hx.symm)]
        have hres1 : ∀ r ∈ rest,
            (findRes (setRes s.resources rule.path rule.value) r.path).isSome = true := by
          intro r hr
          obtain ⟨dd, hdd⟩ := Option.isSome_iff_exists.1 (hres r (List.mem_cons_of_mem _ hr))
          rw [findRes_setRes, hdd]
          rfl
        obtain ⟨ih1, ih2⟩ := ih { s with resources := setRes s.resources rule.path rule.value }
          hreg hnd2 hres1
        simp only [valueLoop, hcond, if_true, hd, henv]
        rw [hstab] at ih1 ih2
        have hrc : remoteCalls (Event.log "update-value"
              :: Event.callSetValue rule.path rule.value :: Event.log "ok-update-value"
              :: (valueLoop env old rest
                  { s with resources := setRes s.resources rule.path rule.value }).2.1)
            = Event.callSetValue rule.path rule.value
              :: remoteCalls ((valueLoop env old rest
                  { s with resources := setRes s.resources rule.path rule.value }).2.1) := by
          simp [remoteCalls, List.filter_cons, isRemoteCall]
        constructor
        · rw [hrc, hcc]
          rw [List.length_cons, List.take_succ_cons]
          exact congrArg _ ih1
        · intro hok
          rw [hrc, hcc]
          exact congrArg _ (ih2 hok)
      · have henvf : env.setValueOk rule.path rule.value = false :=
          Bool.not_eq_true _ ▸ (by simpa using henv)
        simp only [valueLoop, hcond, if_true, hd, henvf, Bool.false_eq_true, if_false]
        constructor
        · rw [hcc]
          simp [remoteCalls, List.filter_cons, isRemoteCall]
        · intro hok
          cases hok
    · have hchf : (oldValueOf old s.resources rule != some rule.value) = false := by
        simpa using hch
      have hcond : ((oldValueOf old s.resources rule != some rule.value) && s.registered)
          = false := by rw [hchf]; rfl
      have hcc : changedCalls old s.resources (rule :: rest)
          = changedCalls old s.resources rest := by
        unfold changedCalls
        rw [List.filter_cons, if_neg (by simp [hchf])]
      simp only [valueLoop, hcond, Bool.false_eq_true, if_false]
      rw [hcc]
      exact ih s hreg hnd2 (fun r hr => hres r (List.mem_cons_of_mem _ hr))

/-- C2 counterexample: with two changed entries and the first entry's
`setValue` rejecting, both entries satisfy the update condition, yet the
only remote call issued is the first one, the second entry's `setValue`
never happens (the rejection propagates to the catch, which logs the
failure), refuting "does not prevent the setValue calls for the remaining
entries". -/
theorem C2_counterexample :
    ((oldValueOf stAB.model stAB.resources ⟨"/a", "dynamic", ["GET"], "1", some true⟩
        != some "1") && stAB.registered) = true
    ∧ ((oldValueOf stAB.model stAB.resources ⟨"/b", "dynamic", ["GET"], "2", some true⟩
        != some "2") && stAB.registered) = true
    ∧ envFailA.setValueOk "/a" "1" = false
    ∧ generateLwm2mModel cdAB stAB.resources mdl0 = rulesAB
    ∧ remoteCalls ((bleModelUpdated cdAB envFailA stAB mdl0).2)
        = [Event.callSetValue "/a" "1"]
    ∧ Event.callSetValue "/b" "2" ∉ (bleModelUpdated cdAB envFailA stAB mdl0).2
    ∧ Event.log "model-update-failed" ∈ (bleModelUpdated cdAB envFailA stAB mdl0).2 := by
  decide

/-- C2 amended: in the value-update phase the remote value setters are
awaited sequentially in list order — the issued calls are always a prefix
of the changed-entry calls in list order, and the full list exactly when
no exception escaped the loop — but a rejection of one entry's `setValue`
aborts the remaining entries (the loop is inside the invocation-wide
`try`), and the failure is logged by the catch, which appends the
failure log to the trace. -/
theorem C2_value_updates_amended (env : RemoteEnv) (old : List Descriptor)
    (s : DeviceState) (rules : List Descriptor)
    (hreg : s.registered = true)
    (hnd : (rules.map (fun r => r.path)).Nodup)
    (hres : ∀ r ∈ rules, (findRes s.resources r.path).isSome = true) :
    (remoteCalls ((valueLoop env old rules s).2.1)
      = (changedCalls old s.resources rules).take
          (remoteCalls ((valueLoop env old rules s).2.1)).length)
    ∧ ((valueLoop env old rules s).2.2 = true →
        remoteCalls ((valueLoop env old rules s).2.1)
          = changedCalls old s.resources rules)
    ∧ ((valueLoop env old rules s).2.2 = false →
        getSchema rules = getSchema s.resources →
        (bleCore env rules old s).2
          = (valueLoop env old rules s).2.1 ++ [Event.log "model-update-failed"]) := by
  obtain ⟨h1, h2⟩ := valueLoop_calls env old rules s hreg hnd hres
  refine ⟨h1, h2, ?_⟩
  intro hok hschema
  unfold bleCore
  rw [if_neg (by simp [hschema])]
  show (valueLoop env old rules s).2.1
      ++ (if (valueLoop env old rules s).2.2 = true then []
          else [Event.log "model-update-failed"])
    = (valueLoop env old rules s).2.1 ++ [Event.log "model-update-failed"]
  rw [hok]
  rfl

/-- Witness for C2's amended claim at the counterexample fixture: the
issued calls are the one-element prefix of the two changed-entry calls. -/
theorem C2_value_updates_amended_witness :
    remoteCalls ((valueLoop envFailA [] rulesAB stAB).2.1)
      = (changedCalls [] stAB.resources rulesAB).take
          (remoteCalls ((valueLoop envFailA [] rulesAB stAB).2.1)).length :=
  (C2_value_updates_amended envFailA [] stAB rulesAB rfl (by decide) (by decide)).1

/-- Witness for C1: a device with a reconciliation in flight drops the new
snapshot with only the drop log. -/
theorem C1_inflight_drop_witness :
    (bleModelUpdated cdAB envOk stBusy mdl0).2 = [Event.log "drop"] :=
  (C1_inflight_drop cdAB envOk stBusy mdl0 rfl).1

/-- C6 counterexample: the spec scenario's mapping
`{read: {temp: snap => snap.svc.c1.value}}` with raw snapshot
`{svc:{c1:{value:21}}}`.  Since `generateLwm2mModel` simplifies the
snapshot first (line 104), the reader receives `{svc:{c1:"21"}}`;
`snap.svc.c1.value` is then `undefined` and the `toString()` at line 115
throws, so the caught exception leaves the value empty and the (absent)
remote resource leaves it `""` — the produced descriptor carries `""`,
not the claimed `"21"`. -/
theorem C6_counterexample :
    generateLwm2mModel cdTempDotValue [] mdlTemp
      = [⟨"/temp", "dynamic", ["GET"], "", some true⟩]
    ∧ generateLwm2mModel cdTempDotValue [] mdlTemp
      ≠ [⟨"/temp", "dynamic", ["GET"], "21", some true⟩] := by
  decide

/-- C6 amended: the generated list has one descriptor per deduplicated key
in first-seen order (read keys before write keys) with path `"/" ++ key`,
`"GET"`/`"PUT"` membership and observability determined by the presence of
a reader/writer; and the spec scenario yields the descriptor with value
`"21"` once its reader is read against the simplified snapshot
(`snap => snap.svc.c1`), the shape the build actually passes to
readers. -/
theorem C6_descriptor_build_amended :
    (∀ (defn : CloudDefinition) (res : List Descriptor) (m : Model),
      (generateLwm2mModel defn res m).map (fun d => d.path)
        = (dedupKeys (readKeysOf defn ++ writeKeysOf defn)).map (fun k => "/" ++ k))
    ∧ (∀ (defn : CloudDefinition) (res : List Descriptor) (sm : SimplifiedModel) (k : String),
        (mkDescriptor defn res sm k).path = "/" ++ k
        ∧ ("GET" ∈ (mkDescriptor defn res sm k).operation ↔ k ∈ readKeysOf defn)
        ∧ ("PUT" ∈ (mkDescriptor defn res sm k).operation ↔ k ∈ writeKeysOf defn)
        ∧ ((mkDescriptor defn res sm k).observable = some true ↔ k ∈ readKeysOf defn)
        ∧ (k ∉ readKeysOf defn → (mkDescriptor defn res sm k).observable = none))
    ∧ generateLwm2mModel cdTemp [] mdlTemp
        = [⟨"/temp", "dynamic", ["GET"], "21", some true⟩] := by
  refine ⟨fun defn res m => generate_paths, ?_, by decide⟩
  intro defn res sm k
  refine ⟨rfl, ?_, ?_, ?_, ?_⟩ <;>
    unfold mkDescriptor <;>
      by_cases hr : (readKeysOf defn).contains k = true <;>
        by_cases hw : (writeKeysOf defn).contains k = true <;>
          simp_all

/-- Witness for C6's amended claim: the corrected scenario conjunct. -/
theorem C6_descriptor_build_amended_witness :
    generateLwm2mModel cdTemp [] mdlTemp
      = [⟨"/temp", "dynamic", ["GET"], "21", some true⟩] :=
  C6_descriptor_build_amended.2.2

theorem no_calls_when_model_current (defn : CloudDefinition) (env : RemoteEnv)
    (s : DeviceState) (m : Model)
    (hflag : s.modelUpdateInProgress = false)
    (hmodel : s.model = generateLwm2mModel defn s.resources m)
    (hbr : ((getSchema (generateLwm2mModel defn s.resources m) != getSchema s.resources)
        && s.registered) = false) :
    remoteCalls ((bleModelUpdated defn env s m).2) = [] := by
  have hstable : valueLoop env s.model (generateLwm2mModel defn s.resources m)
      { s with bleModel := m, modelUpdateInProgress := true }
      = ({ s with bleModel := m, modelUpdateInProgress := true }, [], true) := by
    apply valueLoop_stable
    intro r hr
    rw [hmodel]
    exact find_self_of_nodup generate_paths_nodup hr
  unfold bleModelUpdated
  rw [if_neg (by simp [hflag])]
  unfold bleCore
  rw [if_neg (by simpa using hbr)]
  show remoteCalls ((valueLoop env s.model (generateLwm2mModel defn s.resources m)
      { s with bleModel := m, modelUpdateInProgress := true }).2.1
    ++ (if (valueLoop env s.model (generateLwm2mModel defn s.resources m)
        { s with bleModel := m, modelUpdateInProgress := true }).2.2 = true then []
        else [Event.log "model-update-failed"])) = []
  rw [hstable]
  rfl

/-- C4: reconciliation is idempotent under repeated identical snapshots.
After a completed reconciliation of a snapshot (no reconciliation in
flight, every remote call of the first run succeeding), reconciling the
identical snapshot again issues no remote-service call at all, for every
behaviour of the second run's environment. -/
theorem C4_idempotent (defn : CloudDefinition) (env1 env2 : RemoteEnv) (s : DeviceState)
    (m : Model)
    (hflag : s.modelUpdateInProgress = false)
    (h1 : env1.setResourceModelOk = true) (h2 : env1.deregisterOk = true)
    (h3 : env1.registerOk = true) (h4 : ∀ p v, env1.setValueOk p v = true) :
    remoteCalls ((bleModelUpdated defn env2 ((bleModelUpdated defn env1 s m).1) m).2)
      = [] := by
  have hrun1 : (bleModelUpdated defn env1 s m).1
      = { (bleCore env1 (generateLwm2mModel defn s.resources m) s.model
            { s with bleModel := m, modelUpdateInProgress := true }).1
          with model := generateLwm2mModel defn s.resources m } := by
    unfold bleModelUpdated
    rw [if_neg (by simp [hflag])]
  have hflag1 : ((bleModelUpdated defn env1 s m).1).modelUpdateInProgress = false := by
    rw [hrun1]
    exact bleCore_flag env1 _ _ _
  have hmodel1 : ((bleModelUpdated defn env1 s m).1).model
      = generateLwm2mModel defn s.resources m := by
    rw [hrun1]
  have hreg1 : ((bleModelUpdated defn env1 s m).1).registered = s.registered :=
    bleModelUpdated_preserves_registered defn env1 s m
  have hres1 : ((bleModelUpdated defn env1 s m).1).resources
      = (bleCore env1 (generateLwm2mModel defn s.resources m) s.model
          { s with bleModel := m, modelUpdateInProgress := true }).1.resources := by
    rw [hrun1]
  by_cases hbr : ((getSchema (generateLwm2mModel defn s.resources m)
      != getSchema s.resources) && s.registered) = true
  · have hresA : (bleCore env1 (generateLwm2mModel defn s.resources m) s.model
        { s with bleModel := m, modelUpdateInProgress := true }).1.resources
        = generateLwm2mModel defn s.resources m := by
      unfold bleCore
      rw [if_pos (by simpa using hbr)]
      show ((schemaSeq env1 (generateLwm2mModel defn s.resources m)
          { s with bleModel := m, modelUpdateInProgress := true }).1).resources
        = generateLwm2mModel defn s.resources m
      rw [schemaSeq_allOk env1 _ _ h1 h2 h3]
    have hcurr2 : generateLwm2mModel defn ((bleModelUpdated defn env1 s m).1).resources m
        = generateLwm2mModel defn s.resources m := by
      rw [hres1, hresA]
      exact generate_after_self defn s.resources m
    apply no_calls_when_model_current defn env2 _ m hflag1
    · rw [hcurr2, hmodel1]
    · rw [hcurr2, hres1, hresA, bne_self_eq_false]
      exact Bool.false_and _
  · have hbrf : ((getSchema (generateLwm2mModel defn s.resources m)
        != getSchema s.resources) && s.registered) = false := by
      simpa using hbr
    have hresB : (bleCore env1 (generateLwm2mModel defn s.resources m) s.model
        { s with bleModel := m, modelUpdateInProgress := true }).1.resources
        = ((valueLoop env1 s.model (generateLwm2mModel defn s.resources m)
            { s with bleModel := m, modelUpdateInProgress := true }).1).resources := by
      unfold bleCore
      rw [if_neg (by simpa using hbr)]
    have hcurr2 : generateLwm2mModel defn ((bleModelUpdated defn env1 s m).1).resources m
        = generateLwm2mModel defn s.resources m := by
      rw [hres1, hresB]
      exact generate_after_valueLoop defn env1 m s.model
        { s with bleModel := m, modelUpdateInProgress := true }
    apply no_calls_when_model_current defn env2 _ m hflag1
    · rw [hcurr2, hmodel1]
    · rcases Bool.and_eq_false_iff.1 hbrf with hbne | hregf
      · have hsch1 : getSchema ((bleModelUpdated defn env1 s m).1).resources
            = getSchema s.resources := by
          rw [hres1, hresB]
          exact getSchema_valueLoop env1 _ _ _
        have heq : (getSchema (generateLwm2mModel defn
              ((bleModelUpdated defn env1 s m).1).resources m)
            != getSchema ((bleModelUpdated defn env1 s m).1).resources) = false := by
          apply bne_eq_false_iff_eq.2
          rw [hcurr2, hsch1]
          exact bne_eq_false_iff_eq.1 hbne
        rw [heq]
        exact Bool.false_and _
      · rw [hreg1, hregf]
        exact Bool.and_false _

/-- Witness for C4: two readers over an empty remote model; the first run
re-registers with the new schema, the second run is silent. -/
theorem C4_idempotent_witness :
    remoteCalls ((bleModelUpdated cdAB envOk ((bleModelUpdated cdAB envOk stEmpty mdl0).1)
        mdl0).2) = [] :=
  C4_idempotent cdAB envOk envOk stEmpty mdl0 rfl rfl rfl rfl (fun _ _ => rfl)

end BtDL
